import Mathlib

/-!
Shallow embedding of the KMZ/KML geospatial ingestion pipeline of
`circuithelper/utils.py`: geometry values, the recursive feature
extraction, the centroid computation, the archive unwrapping and the
path-distance calculation.

Python floats are modeled as exact numbers: coordinates parsed from the
markup are rationals, projected (planar) coordinates and lengths are
reals. The external libraries (lxml/fastkml, zipfile, shapely, pyproj)
are modeled at their interfaces: byte inputs are represented by the
outcome of the external parsing step, and the pyproj coordinate
transformer is an arbitrary partial planar projection.
-/

namespace CircuitHelper

/-- Shapely geometry values, parameterized by the coordinate type
(rational pairs for geographic coordinates, real pairs after
reprojection). Multi-part kinds hold their member geometries; a polygon
holds its exterior ring and its interior rings. -/
inductive Geometry (α : Type) : Type where
  | point (p : α)
  | lineString (coords : List α)
  | linearRing (coords : List α)
  | polygon (exterior : List α) (interiors : List (List α))
  | multiPoint (geoms : List (Geometry α))
  | multiLineString (geoms : List (Geometry α))
  | multiPolygon (geoms : List (Geometry α))
  | geometryCollection (geoms : List (Geometry α))

/-- The shapely `geom_type` string of a geometry. -/
def Geometry.geom_type {α : Type} : Geometry α → String
  | .point _ => "Point"
  | .lineString _ => "LineString"
  | .linearRing _ => "LinearRing"
  | .polygon _ _ => "Polygon"
  | .multiPoint _ => "MultiPoint"
  | .multiLineString _ => "MultiLineString"
  | .multiPolygon _ => "MultiPolygon"
  | .geometryCollection _ => "GeometryCollection"

mutual

/-- The function `extract_coordinates` of `utils.py`. Its dispatch is on
`geom_type` strings: Point appends the single (x, y) pair; LineString
and LinearRing extend by all vertices; Polygon extends by the exterior
ring only; a `geom_type` starting with "Multi", and GeometryCollection,
loop over the member geometries recursively, in order. The constructor
match below realizes exactly that string dispatch. -/
def extract_coordinates {α : Type} : Geometry α → List α
  | .point p => [p]
  | .lineString cs => cs
  | .linearRing cs => cs
  | .polygon exterior _ => exterior
  | .multiPoint gs => extractFromAll gs
  | .multiLineString gs => extractFromAll gs
  | .multiPolygon gs => extractFromAll gs
  | .geometryCollection gs => extractFromAll gs

/-- The loop `for geom in geometry.geoms: coords.extend(extract_coordinates(geom))`. -/
def extractFromAll {α : Type} : List (Geometry α) → List α
  | [] => []
  | g :: gs => extract_coordinates g ++ extractFromAll gs

end

/-- Geographic coordinates as parsed from the markup, in the internal
storage order (longitude, latitude): shapely reads the KML
`lon,lat` coordinate text into x = longitude, y = latitude. -/
abbrev Coord : Type := ℚ × ℚ

/-- A node of the fastkml object tree. Documents and Folders expose a
`features` iterator and no geometry; Placemarks expose a `geometry`
attribute, possibly null, and no `features` iterator. The optional
strings model the name/description lookup `getattr(feature, _, "")`:
`none` means the lookup falls back to the supplied default. -/
inductive KMLFeature : Type where
  | container (name description : Option String) (children : List KMLFeature)
  | placemark (name description : Option String) (geometry : Option (Geometry Coord))

/-- A GeoJSON Feature dict as built by `features_from_document`:
the geometry under the key "geometry" and the "name" and "description"
entries of the "properties" mapping. -/
structure Feature : Type where
  geometry : Geometry Coord
  name : String
  description : String

/-- The Feature dict appended for one placemark: the geometry is
`mapping(shape(feature.geometry))` (a representation change, the
identity here), name and description are `getattr(feature, _, "")`. -/
def mkFeature (name description : Option String) (g : Geometry Coord) : Feature :=
  ⟨g, name.getD "", description.getD ""⟩

/-- The block `if hasattr(feature, "geometry") and feature.geometry:` of
`features_from_document`: the Feature appended and the coordinates
extended for one node; nothing when the node is a container (no
geometry attribute) or its geometry is null. -/
def ownOutput : KMLFeature → List Feature × List Coord
  | .placemark n d (some g) => ([mkFeature n d g], extract_coordinates g)
  | .placemark _ _ none => ([], [])
  | .container _ _ _ => ([], [])

mutual

/-- The function `features_from_document` of `utils.py`, with the two
mutable accumulator lists returned as a pair (features, coords). A node
without a `features` attribute (a Placemark) contributes nothing at
this level. -/
def features_from_document : KMLFeature → List Feature × List Coord
  | .placemark _ _ _ => ([], [])
  | .container _ _ children => processChildren children

/-- The loop `for feature in document.features()`: for each child, first
its own geometry output, then — when it has a `features` attribute — the
recursive call. Calling `features_from_document` on a Placemark child
returns nothing, which agrees with the skipped `hasattr` guard. -/
def processChildren : List KMLFeature → List Feature × List Coord
  | [] => ([], [])
  | c :: cs =>
    let sub := features_from_document c
    let rest := processChildren cs
    ((ownOutput c).1 ++ (sub.1 ++ rest.1), (ownOutput c).2 ++ (sub.2 ++ rest.2))

end

/-- The outcome of `etree.fromstring` plus `kml.KML().from_string` on the
markup bytes: the list of top-level features of the parsed document, or
an error (any exception raised anywhere while parsing or traversing).
Markup byte inputs are modeled by this outcome. -/
inductive KMLData : Type where
  | ok (topFeatures : List KMLFeature)
  | error

/-- The loop `for feature in k.features(): features_from_document(...)`
of `parse_kml_data`. -/
def processTop : List KMLFeature → List Feature × List Coord
  | [] => ([], [])
  | t :: ts =>
    let here := features_from_document t
    let rest := processTop ts
    (here.1 ++ rest.1, here.2 ++ rest.2)

/-- A GeoJSON mapping as passed around by `utils.py`; each field holds
the value at the corresponding key, `none` when the key is absent. -/
structure GeoJSON : Type where
  type? : Option String
  features? : Option (List Feature)

/-- The function `parse_kml_data` of `utils.py`: on a parse error,
(None, None); otherwise the FeatureCollection dict together with the
center — the mean latitude paired with the mean longitude over every
collected coordinate, `None` when no coordinates were collected. -/
def parse_kml_data : KMLData → Option GeoJSON × Option (ℚ × ℚ)
  | .error => (none, none)
  | .ok top =>
    let all_coords := (processTop top).2
    let geojson : GeoJSON := ⟨some "FeatureCollection", some (processTop top).1⟩
    let center : Option (ℚ × ℚ) :=
      if all_coords.isEmpty then none
      else
        some ((all_coords.map (fun c => c.2)).sum / (all_coords.length : ℚ),
              (all_coords.map (fun c => c.1)).sum / (all_coords.length : ℚ))
    (some geojson, center)

/-- The outcome of `zipfile.ZipFile(BytesIO(...))` on the uploaded
bytes: the entry names of `namelist()` in container-relative (directory)
order, each paired with its decompressed bytes (modeled by their
markup-parse outcome), or a failure (any exception while opening or
reading the archive). -/
inductive KMZData : Type where
  | ok (entries : List (String × KMLData))
  | invalid

/-- The test `name.endswith(".kml")` on an entry name, expressed on the
character sequence of the name. -/
def hasKmlSuffix (name : String) : Bool :=
  ".kml".data.isSuffixOf name.data

/-- The function `parse_kmz_file` of `utils.py`: select the first entry
of `namelist()` whose name ends in ".kml"; when none exists, or on any
archive error, return (None, None); otherwise parse that entry. -/
def parse_kmz_file : KMZData → Option GeoJSON × Option (ℚ × ℚ)
  | .invalid => (none, none)
  | .ok entries =>
    match entries.find? (fun e => hasKmlSuffix e.1) with
    | none => (none, none)
    | some e => parse_kml_data e.2

/-- The pyproj transformer from EPSG 4326 to EPSG 3857 built in
`calculate_path_distance`, modeled as an arbitrary partial planar
projection: `none` models the transformer raising on a coordinate. -/
abbrev Transformer : Type := Coord → Option (ℝ × ℝ)

/-- Apply the transformer to every coordinate of a list, failing when it
fails anywhere. -/
def traverseCoords (tr : Transformer) : List Coord → Option (List (ℝ × ℝ))
  | [] => some []
  | c :: cs =>
    match tr c, traverseCoords tr cs with
    | some p, some ps => some (p :: ps)
    | _, _ => none

/-- Apply the transformer to every ring of a ring list. -/
def traverseRings (tr : Transformer) : List (List Coord) → Option (List (List (ℝ × ℝ)))
  | [] => some []
  | r :: rs =>
    match traverseCoords tr r, traverseRings tr rs with
    | some q, some qs => some (q :: qs)
    | _, _ => none

mutual

/-- The call `shapely.ops.transform(transformer.transform, geom)`: the
geometry with every coordinate reprojected, `none` when the transformer
raises anywhere inside it. -/
def Geometry.transform (tr : Transformer) : Geometry Coord → Option (Geometry (ℝ × ℝ))
  | .point p => (tr p).map (fun q => .point q)
  | .lineString cs => (traverseCoords tr cs).map (fun ps => .lineString ps)
  | .linearRing cs => (traverseCoords tr cs).map (fun ps => .linearRing ps)
  | .polygon ext ints =>
    match traverseCoords tr ext, traverseRings tr ints with
    | some e, some is => some (.polygon e is)
    | _, _ => none
  | .multiPoint gs => (transformAll tr gs).map (fun hs => .multiPoint hs)
  | .multiLineString gs => (transformAll tr gs).map (fun hs => .multiLineString hs)
  | .multiPolygon gs => (transformAll tr gs).map (fun hs => .multiPolygon hs)
  | .geometryCollection gs => (transformAll tr gs).map (fun hs => .geometryCollection hs)

/-- Transform every member of a geometry list, failing when any fails. -/
def transformAll (tr : Transformer) : List (Geometry Coord) → Option (List (Geometry (ℝ × ℝ)))
  | [] => some []
  | g :: gs =>
    match Geometry.transform tr g, transformAll tr gs with
    | some h, some hs => some (h :: hs)
    | _, _ => none

end

/-- Euclidean distance between two planar points. -/
noncomputable def segmentLength (p q : ℝ × ℝ) : ℝ :=
  Real.sqrt ((q.1 - p.1) ^ 2 + (q.2 - p.2) ^ 2)

/-- Length of a planar coordinate path: the sum of the lengths of its
consecutive segments (the shapely length of a LineString). -/
noncomputable def pathLength : List (ℝ × ℝ) → ℝ
  | p :: q :: rest => segmentLength p q + pathLength (q :: rest)
  | _ => 0

/-- Total path length of a list of rings. -/
noncomputable def ringsLength : List (List (ℝ × ℝ)) → ℝ
  | [] => 0
  | r :: rs => pathLength r + ringsLength rs

mutual

/-- The shapely `length` of a planar geometry: 0 for points, the path
length for the line kinds, the full perimeter for polygons, the sum over
members for the multi-part kinds. Only LineString and MultiLineString
values reach this call inside `calculate_path_distance`. -/
noncomputable def Geometry.length : Geometry (ℝ × ℝ) → ℝ
  | .point _ => 0
  | .lineString cs => pathLength cs
  | .linearRing cs => pathLength cs
  | .polygon ext ints => pathLength ext + ringsLength ints
  | .multiPoint gs => lengthAll gs
  | .multiLineString gs => lengthAll gs
  | .multiPolygon gs => lengthAll gs
  | .geometryCollection gs => lengthAll gs

/-- Sum of the lengths of a list of geometries. -/
noncomputable def lengthAll : List (Geometry (ℝ × ℝ)) → ℝ
  | [] => 0
  | g :: gs => Geometry.length g + lengthAll gs

end

/-- The membership test `geom.geom_type in ["LineString", "MultiLineString"]`
of `calculate_path_distance`. -/
def isLinearType {α : Type} (g : Geometry α) : Bool :=
  g.geom_type == "LineString" || g.geom_type == "MultiLineString"

/-- Python `round(x, 2)`: rounding to two decimal places. The float
tie-breaking rule of Python (half to even) differs from `round` (half
up) only at exact ties, on which no property here depends. -/
noncomputable def round2 (x : ℝ) : ℝ := (round (x * 100) : ℤ) / 100

/-- The accumulation loop of `calculate_path_distance`: for each feature
whose geometry kind is linear, reproject it and add its planar length to
the running total; a transformer failure raises out of the loop, failing
the whole computation. -/
noncomputable def sumLinearLengths (tr : Transformer) : List Feature → Option ℝ
  | [] => some 0
  | f :: fs =>
    if isLinearType f.geometry then
      match f.geometry.transform tr with
      | none => none
      | some pg => (sumLinearLengths tr fs).map (fun rest => pg.length + rest)
    else
      sumLinearLengths tr fs

/-- The function `calculate_path_distance` of `utils.py`: sum the
projected lengths of the LineString and MultiLineString features of
`geojson_data.get("features", [])`, convert meters to kilometers and
round to two decimals; `None` on any error inside the computation. -/
noncomputable def calculate_path_distance (tr : Transformer) (geojson_data : GeoJSON) :
    Option ℝ :=
  (sumLinearLengths tr (geojson_data.features?.getD [])).map
    (fun total => round2 (total / 1000))

mutual

/-- Every strict descendant of a node of the fastkml tree, in document
(preorder) order: each child precedes its own subtree. -/
def KMLFeature.descendants : KMLFeature → List KMLFeature
  | .placemark _ _ _ => []
  | .container _ _ children => descendantsAll children

/-- The descendants of a forest: each root, then its subtree, in order. -/
def descendantsAll : List KMLFeature → List KMLFeature
  | [] => []
  | c :: cs => c :: (KMLFeature.descendants c ++ descendantsAll cs)

end

/-- Following the words of the specification: the Feature an entry of
the tree should contribute — exactly one Feature when the entry carries
a non-null geometry, nothing otherwise. Used to compare the extraction
of `features_from_document` with the specified one. -/
def specFeature? : KMLFeature → Option Feature
  | .placemark n d (some g) => some (mkFeature n d g)
  | .placemark _ _ none => none
  | .container _ _ _ => none

/-- The planar length a feature contributes once its reprojection
succeeds (0 by convention when it failed; only used under a success
hypothesis). -/
noncomputable def projectedLength (tr : Transformer) (f : Feature) : ℝ :=
  ((f.geometry.transform tr).map Geometry.length).getD 0

/- ===== Helper lemmas ===== -/

theorem extractFromAll_eq_flatten {α : Type} (gs : List (Geometry α)) :
    extractFromAll gs = (gs.map extract_coordinates).flatten := by
  induction gs with
  | nil => simp [extractFromAll]
  | cons g gs ih => simp [extractFromAll, ih]

mutual

theorem features_from_document_fst : (t : KMLFeature) →
    (features_from_document t).1 = (KMLFeature.descendants t).filterMap specFeature?
  | .placemark _ _ _ => by
    simp [features_from_document, KMLFeature.descendants]
  | .container n d cs => by
    rw [features_from_document, KMLFeature.descendants]
    exact processChildren_fst cs

theorem processChildren_fst : (cs : List KMLFeature) →
    (processChildren cs).1 = (descendantsAll cs).filterMap specFeature?
  | [] => by simp [processChildren, descendantsAll]
  | c :: cs => by
    have h1 := features_from_document_fst c
    have h2 := processChildren_fst cs
    rw [processChildren, descendantsAll]
    simp only [List.filterMap_cons, List.filterMap_append, ← h1, ← h2]
    cases c with
    | container n d kids => simp [ownOutput, specFeature?]
    | placemark n d g => cases g <;> simp [ownOutput, specFeature?]

end

theorem processTop_fst (top : List KMLFeature) :
    (processTop top).1 = (top.flatMap KMLFeature.descendants).filterMap specFeature? := by
  induction top with
  | nil => simp [processTop]
  | cons t ts ih =>
    rw [processTop]
    simp only [List.flatMap_cons, List.filterMap_append, features_from_document_fst t, ih]

theorem pathLength_nonneg (cs : List (ℝ × ℝ)) : 0 ≤ pathLength cs := by
  induction cs with
  | nil => simp [pathLength]
  | cons p rest ih =>
    cases rest with
    | nil => simp [pathLength]
    | cons q rest2 =>
      rw [pathLength]
      exact add_nonneg (Real.sqrt_nonneg _) ih

theorem ringsLength_nonneg (rs : List (List (ℝ × ℝ))) : 0 ≤ ringsLength rs := by
  induction rs with
  | nil => simp [ringsLength]
  | cons r rs ih => rw [ringsLength]; exact add_nonneg (pathLength_nonneg r) ih

mutual

theorem Geometry.length_nonneg : (g : Geometry (ℝ × ℝ)) → 0 ≤ g.length
  | .point _ => le_refl 0
  | .lineString cs => pathLength_nonneg cs
  | .linearRing cs => pathLength_nonneg cs
  | .polygon ext ints => add_nonneg (pathLength_nonneg ext) (ringsLength_nonneg ints)
  | .multiPoint gs => lengthAll_nonneg gs
  | .multiLineString gs => lengthAll_nonneg gs
  | .multiPolygon gs => lengthAll_nonneg gs
  | .geometryCollection gs => lengthAll_nonneg gs

theorem lengthAll_nonneg : (gs : List (Geometry (ℝ × ℝ))) → 0 ≤ lengthAll gs
  | [] => le_refl 0
  | g :: gs => add_nonneg (Geometry.length_nonneg g) (lengthAll_nonneg gs)

end

theorem round2_nonneg {x : ℝ} (hx : 0 ≤ x) : 0 ≤ round2 x := by
  unfold round2
  have h : (0 : ℤ) ≤ round (x * 100) := by
    rw [round_eq]
    exact Int.floor_nonneg.mpr (by linarith)
  have h2 : (0 : ℝ) ≤ ((round (x * 100) : ℤ) : ℝ) := by exact_mod_cast h
  linarith [div_nonneg h2 (by norm_num : (0 : ℝ) ≤ 100)]

theorem round2_zero : round2 0 = 0 := by
  unfold round2
  norm_num

theorem sumLinearLengths_nonneg (tr : Transformer) (fs : List Feature) :
    ∀ t, sumLinearLengths tr fs = some t → 0 ≤ t := by
  induction fs with
  | nil =>
    intro t h
    rw [sumLinearLengths] at h
    cases h
    exact le_refl 0
  | cons f fs ih =>
    intro t h
    rw [sumLinearLengths] at h
    by_cases hl : isLinearType f.geometry
    · rw [if_pos hl] at h
      cases htr : f.geometry.transform tr with
      | none => rw [htr] at h; cases h
      | some pg =>
        rw [htr] at h
        cases hs : sumLinearLengths tr fs with
        | none => rw [hs] at h; cases h
        | some s =>
          rw [hs] at h
          simp only [Option.map_some', Option.some.injEq] at h
          subst h
          exact add_nonneg (Geometry.length_nonneg pg) (ih s hs)
    · rw [if_neg hl] at h
      exact ih t h

theorem sumLinearLengths_eq (tr : Transformer) (fs : List Feature)
    (hOK : ∀ f ∈ fs, isLinearType f.geometry → (f.geometry.transform tr).isSome) :
    sumLinearLengths tr fs
      = some (((fs.filter (fun f => isLinearType f.geometry)).map (projectedLength tr)).sum) := by
  induction fs with
  | nil => simp [sumLinearLengths]
  | cons f fs ih =>
    have hOKf := hOK f (List.mem_cons_self f fs)
    have hOKrest : ∀ g ∈ fs, isLinearType g.geometry → (g.geometry.transform tr).isSome :=
      fun g hg => hOK g (List.mem_cons_of_mem f hg)
    rw [sumLinearLengths]
    by_cases hl : isLinearType f.geometry
    · rw [if_pos hl]
      cases htr : f.geometry.transform tr with
      | none => rw [htr] at hOKf; simp [hl] at hOKf
      | some pg =>
        rw [ih hOKrest]
        simp [List.filter_cons, hl, projectedLength, htr]
    · rw [if_neg hl, ih hOKrest]
      simp [List.filter_cons, hl]

theorem sumLinearLengths_none_iff (tr : Transformer) (fs : List Feature) :
    sumLinearLengths tr fs = none ↔
      ∃ f ∈ fs, isLinearType f.geometry ∧ f.geometry.transform tr = none := by
  induction fs with
  | nil => simp [sumLinearLengths]
  | cons f fs ih =>
    rw [sumLinearLengths]
    by_cases hl : isLinearType f.geometry
    · rw [if_pos hl]
      cases htr : f.geometry.transform tr with
      | none =>
        constructor
        · intro _; exact ⟨f, List.mem_cons_self f fs, hl, htr⟩
        · intro _; rfl
      | some pg =>
        rw [Option.map_eq_none', ih]
        constructor
        · rintro ⟨g, hg, hgl, hgt⟩
          exact ⟨g, List.mem_cons_of_mem f hg, hgl, hgt⟩
        · rintro ⟨g, hg, hgl, hgt⟩
          rcases List.mem_cons.mp hg with hg | hg
          · subst hg; rw [htr] at hgt; cases hgt
          · exact ⟨g, hg, hgl, hgt⟩
    · rw [if_neg hl, ih]
      constructor
      · rintro ⟨g, hg, hgl, hgt⟩
        exact ⟨g, List.mem_cons_of_mem f hg, hgl, hgt⟩
      · rintro ⟨g, hg, hgl, hgt⟩
        rcases List.mem_cons.mp hg with hg | hg
        · subst hg; exact absurd hgl hl
        · exact ⟨g, hg, hgl, hgt⟩

/- ===== Claim theorems ===== -/

/-- Claim C1, counterexample: a well-formed document whose single
top-level entry is a placemark carrying a non-null geometry. The claim
demands exactly one Feature for every geometry-carrying entry of the
tree, top-level entries included, hence a one-feature collection here;
`parse_kml_data` produces an empty collection, because
`features_from_document` only ever inspects the children of the node it
is handed, never the node itself. -/
theorem parse_kml_drops_toplevel_placemark :
    (specFeature? (KMLFeature.placemark none none
        (some (Geometry.point ((0 : ℚ), (0 : ℚ)))))).isSome = true
    ∧ parse_kml_data (KMLData.ok
          [KMLFeature.placemark none none (some (Geometry.point ((0 : ℚ), (0 : ℚ))))])
        = (some ⟨some "FeatureCollection", some []⟩, none) :=
  ⟨rfl, rfl⟩

/-- Claim C1 (amended): for every well-formed document, the extraction
is a recursive descent in document order, and the FeatureCollection
contains exactly one Feature, in encounter (preorder) order, for every
strict descendant of a top-level entry — every entry that is a child of
some document or folder node — that carries a non-null geometry.
Top-level entries own geometries are never inspected (a geometry-bearing
top-level placemark contributes nothing), and entries without geometry
and without children contribute nothing. -/
theorem parse_kml_features_exact (top : List KMLFeature) :
    (parse_kml_data (KMLData.ok top)).1
      = some ⟨some "FeatureCollection",
              some ((top.flatMap KMLFeature.descendants).filterMap specFeature?)⟩ := by
  have h : (parse_kml_data (KMLData.ok top)).1
      = some ⟨some "FeatureCollection", some (processTop top).1⟩ := rfl
  rw [h, processTop_fst]

/-- Claim C2: `extract_coordinates` returns, for a Point, the single
(x, y) pair; for a LineString or LinearRing, all vertices in order; for
a Polygon, the exterior ring only, whatever the interior rings are; for
the Multi kinds and GeometryCollection, the concatenation of the
recursively extracted coordinates of the members, in member order. -/
theorem extract_coordinates_spec {α : Type} (p : α) (cs ext : List α)
    (ints : List (List α)) (gs : List (Geometry α)) :
    extract_coordinates (Geometry.point p) = [p]
    ∧ extract_coordinates (Geometry.lineString cs) = cs
    ∧ extract_coordinates (Geometry.linearRing cs) = cs
    ∧ extract_coordinates (Geometry.polygon ext ints) = ext
    ∧ extract_coordinates (Geometry.multiPoint gs)
        = (gs.map extract_coordinates).flatten
    ∧ extract_coordinates (Geometry.multiLineString gs)
        = (gs.map extract_coordinates).flatten
    ∧ extract_coordinates (Geometry.multiPolygon gs)
        = (gs.map extract_coordinates).flatten
    ∧ extract_coordinates (Geometry.geometryCollection gs)
        = (gs.map extract_coordinates).flatten := by
  refine ⟨rfl, rfl, rfl, rfl, ?_, ?_, ?_, ?_⟩ <;>
    rw [extract_coordinates] <;> exact extractFromAll_eq_flatten gs

/-- Claim C3: on a successful parse with a non-empty coordinate pool the
center is the unweighted arithmetic mean of the latitudes paired with
the unweighted arithmetic mean of the longitudes — the components
inverted relative to the internal (lon, lat) storage — and on an empty
pool the center is None. -/
theorem parse_kml_center_spec (top : List KMLFeature) :
    ((processTop top).2 ≠ [] →
      (parse_kml_data (KMLData.ok top)).2
        = some ((((processTop top).2.map (fun c => c.2)).sum / ((processTop top).2.length : ℚ)),
                (((processTop top).2.map (fun c => c.1)).sum / ((processTop top).2.length : ℚ))))
    ∧ ((processTop top).2 = [] → (parse_kml_data (KMLData.ok top)).2 = none) := by
  constructor
  · intro h
    have he : (processTop top).2.isEmpty = false := by
      rw [← Bool.not_eq_true, List.isEmpty_iff]
      exact h
    simp [parse_kml_data, he]
  · intro h
    have he : (processTop top).2.isEmpty = true := List.isEmpty_iff.mpr h
    simp [parse_kml_data, he]

/-- Claim C3, witness: a document with one placemark at longitude 3,
latitude 4; the pool is non-empty and the center comes back as
(latitude, longitude) = (4, 3). -/
theorem parse_kml_center_spec_witness :
    (processTop [KMLFeature.container none none
        [KMLFeature.placemark none none (some (Geometry.point ((3 : ℚ), (4 : ℚ))))]]).2 ≠ []
    ∧ (parse_kml_data (KMLData.ok [KMLFeature.container none none
        [KMLFeature.placemark none none (some (Geometry.point ((3 : ℚ), (4 : ℚ))))]])).2
      = some ((4 : ℚ), (3 : ℚ)) := by
  have hc : (processTop [KMLFeature.container none none
      [KMLFeature.placemark none none (some (Geometry.point ((3 : ℚ), (4 : ℚ))))]]).2
      = [((3 : ℚ), (4 : ℚ))] := rfl
  have hne : (processTop [KMLFeature.container none none
      [KMLFeature.placemark none none (some (Geometry.point ((3 : ℚ), (4 : ℚ))))]]).2
      ≠ [] := by rw [hc]; simp
  refine ⟨hne, ?_⟩
  have h := (parse_kml_center_spec [KMLFeature.container none none
      [KMLFeature.placemark none none (some (Geometry.point ((3 : ℚ), (4 : ℚ))))]]).1 hne
  rw [h, hc]
  norm_num

/-- Claim C5: a markup input on which parsing raises yields (None, None)
— and partial collections are impossible: any returned collection is the
complete extraction of a fully successful parse. -/
theorem parse_kml_error_absence (d : KMLData) :
    (d = KMLData.error → parse_kml_data d = (none, none))
    ∧ (∀ gj, (parse_kml_data d).1 = some gj →
        ∃ top, d = KMLData.ok top
          ∧ gj = ⟨some "FeatureCollection", some (processTop top).1⟩) := by
  cases d with
  | error =>
    constructor
    · intro _; rfl
    · intro gj h; cases h
  | ok top =>
    constructor
    · intro h; cases h
    · intro gj h
      have h2 : (parse_kml_data (KMLData.ok top)).1
          = some (⟨some "FeatureCollection", some (processTop top).1⟩ : GeoJSON) := rfl
      rw [h2, Option.some.injEq] at h
      exact ⟨top, rfl, h.symm⟩

/-- Claim C5, witness: the failing parse outcome. -/
theorem parse_kml_error_absence_witness :
    parse_kml_data KMLData.error = (none, none) :=
  (parse_kml_error_absence KMLData.error).1 rfl

/-- Claim C6: a byte input that is not a valid archive, or a valid
archive without any entry named with the ".kml" suffix, yields
(None, None); the function is total, so no exception reaches the
caller. -/
theorem parse_kmz_absence (z : KMZData) :
    (z = KMZData.invalid → parse_kmz_file z = (none, none))
    ∧ (∀ entries, z = KMZData.ok entries →
        (∀ e ∈ entries, hasKmlSuffix e.1 = false) →
        parse_kmz_file z = (none, none)) := by
  constructor
  · intro h; subst h; rfl
  · intro entries h hnone
    subst h
    rw [parse_kmz_file]
    have h2 : entries.find? (fun e => hasKmlSuffix e.1) = none :=
      List.find?_eq_none.mpr (fun x hx => by rw [hnone x hx]; exact Bool.false_ne_true)
    rw [h2]

/-- Claim C6, witness: a valid archive holding a single non-kml entry. -/
theorem parse_kmz_absence_witness :
    (∀ e ∈ [(("circuit.txt" : String), KMLData.error)], hasKmlSuffix e.1 = false)
    ∧ parse_kmz_file (KMZData.ok [(("circuit.txt" : String), KMLData.error)])
        = (none, none) :=
  ⟨by decide, (parse_kmz_absence _).2 _ rfl (by decide)⟩

/-- Claim C8: on a valid archive whose directory is any prefix of
non-matching entries, then an entry with the ".kml" suffix, then
anything at all, `parse_kmz_file` parses exactly that first matching
entry; later matching entries are ignored and duplicates are no
error. -/
theorem parse_kmz_first_kml_entry (pre post : List (String × KMLData))
    (e : String × KMLData)
    (hpre : ∀ x ∈ pre, hasKmlSuffix x.1 = false)
    (he : hasKmlSuffix e.1 = true) :
    parse_kmz_file (KMZData.ok (pre ++ e :: post)) = parse_kml_data e.2 := by
  rw [parse_kmz_file]
  have h : (pre ++ e :: post).find? (fun x => hasKmlSuffix x.1) = some e := by
    induction pre with
    | nil => exact List.find?_cons_of_pos _ he
    | cons x pre ih =>
      rw [List.cons_append, List.find?_cons_of_neg]
      · exact ih (fun y hy => hpre y (List.mem_cons_of_mem x hy))
      · rw [hpre x (List.mem_cons_self x pre)]; exact Bool.false_ne_true
  rw [h]

/-- Claim C8, witness: a non-matching entry, then "a.kml", then a later
duplicate "b.kml"; the first match "a.kml" is the one parsed. -/
theorem parse_kmz_first_kml_entry_witness :
    (∀ x ∈ [(("notes.txt" : String), KMLData.ok [])], hasKmlSuffix x.1 = false)
    ∧ hasKmlSuffix ("a.kml" : String) = true
    ∧ parse_kmz_file (KMZData.ok ([(("notes.txt" : String), KMLData.ok [])]
          ++ (("a.kml" : String), KMLData.error)
            :: [(("b.kml" : String), KMLData.ok [])]))
        = parse_kml_data KMLData.error :=
  ⟨by decide, by decide,
    parse_kmz_first_kml_entry _ _ _ (by decide) (by decide)⟩

/-- Claim C4: the distance is the sum of the planar lengths of exactly
the LineString and MultiLineString features, in meters, divided by 1000
and rounded to two decimals; every other kind contributes zero, a
collection without linear features yields zero, and the result is never
negative. -/
theorem calculate_path_distance_spec (tr : Transformer) (gj : GeoJSON) :
    (∀ r, calculate_path_distance tr gj = some r → 0 ≤ r)
    ∧ ((∀ f ∈ gj.features?.getD [], isLinearType f.geometry →
          (f.geometry.transform tr).isSome) →
        calculate_path_distance tr gj
          = some (round2 ((((gj.features?.getD []).filter
              (fun f => isLinearType f.geometry)).map (projectedLength tr)).sum / 1000)))
    ∧ ((∀ f ∈ gj.features?.getD [], ¬ isLinearType f.geometry) →
        calculate_path_distance tr gj = some 0) := by
  refine ⟨?_, ?_, ?_⟩
  · intro r h
    unfold calculate_path_distance at h
    rcases Option.map_eq_some'.mp h with ⟨t, ht, hrt⟩
    subst hrt
    exact round2_nonneg (div_nonneg (sumLinearLengths_nonneg tr _ t ht) (by norm_num))
  · intro hOK
    unfold calculate_path_distance
    rw [sumLinearLengths_eq tr _ hOK, Option.map_some']
  · intro hnone
    unfold calculate_path_distance
    have h0 : (gj.features?.getD []).filter (fun f => isLinearType f.geometry) = [] :=
      List.filter_eq_nil_iff.mpr (fun f hf => hnone f hf)
    rw [sumLinearLengths_eq tr _ (fun f hf hl => absurd hl (hnone f hf)),
      Option.map_some', h0]
    simp [round2_zero]

/-- Claim C4, witness: a point-only collection with an everywhere
failing transformer still yields a distance of exactly zero. -/
theorem calculate_path_distance_spec_witness :
    (∀ f ∈ ([⟨Geometry.point ((0 : ℚ), (0 : ℚ)), "", ""⟩] : List Feature),
        ¬ isLinearType f.geometry)
    ∧ calculate_path_distance (fun _ => none)
        ⟨some "FeatureCollection", some [⟨Geometry.point ((0 : ℚ), (0 : ℚ)), "", ""⟩]⟩
      = some 0 :=
  ⟨by decide, (calculate_path_distance_spec (fun _ => none) _).2.2 (by decide)⟩

/-- Claim C7: the distance computation returns None exactly when the
reprojection fails inside some linear feature — no partial sum is ever
surfaced — and such a failure is independent of geometry extraction:
there is a parse that succeeds, returning a FeatureCollection, on which
the distance computation alone fails. -/
theorem calculate_path_distance_failure (tr : Transformer) (gj : GeoJSON) :
    (calculate_path_distance tr gj = none ↔
        ∃ f ∈ gj.features?.getD [], isLinearType f.geometry
          ∧ f.geometry.transform tr = none)
    ∧ ∃ (d : KMLData) (tr2 : Transformer) (gj2 : GeoJSON) (c : Option (ℚ × ℚ)),
        parse_kml_data d = (some gj2, c)
        ∧ calculate_path_distance tr2 gj2 = none := by
  constructor
  · unfold calculate_path_distance
    rw [Option.map_eq_none']
    exact sumLinearLengths_none_iff tr _
  · refine ⟨KMLData.ok [KMLFeature.container none none
        [KMLFeature.placemark none none
          (some (Geometry.lineString [((0 : ℚ), (0 : ℚ)), ((1 : ℚ), (1 : ℚ))]))]],
      fun _ => none,
      ⟨some "FeatureCollection",
        some [⟨Geometry.lineString [((0 : ℚ), (0 : ℚ)), ((1 : ℚ), (1 : ℚ))], "", ""⟩]⟩,
      _, rfl, ?_⟩
    rfl

/-- Claim C9: every Feature of the output collection takes its name and
description from the optional text fields of the placemark it came from,
as strings, with the empty string whenever the optional field is
absent. -/
theorem feature_properties_defaults (top : List KMLFeature) (f : Feature)
    (hf : f ∈ (processTop top).1) :
    ∃ n d g, KMLFeature.placemark n d (some g) ∈ top.flatMap KMLFeature.descendants
      ∧ f = mkFeature n d g
      ∧ f.name = n.getD "" ∧ f.description = d.getD ""
      ∧ (n = none → f.name = "") ∧ (d = none → f.description = "") := by
  rw [processTop_fst] at hf
  rcases List.mem_filterMap.mp hf with ⟨e, he, hspec⟩
  cases e with
  | container n d kids => simp [specFeature?] at hspec
  | placemark n d g =>
    cases g with
    | none => simp [specFeature?] at hspec
    | some g0 =>
      simp only [specFeature?, Option.some.injEq] at hspec
      subst hspec
      exact ⟨n, d, g0, he, rfl, rfl, rfl,
        fun hn => by rw [hn]; rfl, fun hd => by rw [hd]; rfl⟩

/-- Claim C9, witness: a placemark with both optional text fields absent
yields a Feature whose name and description are the empty string. -/
theorem feature_properties_defaults_witness :
    ∃ n d g, KMLFeature.placemark n d (some g)
        ∈ [KMLFeature.container none none
            [KMLFeature.placemark none none
              (some (Geometry.point ((5 : ℚ), (6 : ℚ))))]].flatMap KMLFeature.descendants
      ∧ (⟨Geometry.point ((5 : ℚ), (6 : ℚ)), "", ""⟩ : Feature) = mkFeature n d g
      ∧ (⟨Geometry.point ((5 : ℚ), (6 : ℚ)), "", ""⟩ : Feature).name = n.getD ""
      ∧ (⟨Geometry.point ((5 : ℚ), (6 : ℚ)), "", ""⟩ : Feature).description = d.getD ""
      ∧ (n = none → (⟨Geometry.point ((5 : ℚ), (6 : ℚ)), "", ""⟩ : Feature).name = "")
      ∧ (d = none →
          (⟨Geometry.point ((5 : ℚ), (6 : ℚ)), "", ""⟩ : Feature).description = "") :=
  feature_properties_defaults _ _ (by exact List.mem_singleton.mpr rfl)

/-- Claim C10: an input mapping without a "features" key defaults to the
empty feature list, so the distance computation succeeds with the
defined value 0 instead of failing or returning the absence signal. -/
theorem calculate_path_distance_missing_key (tr : Transformer) (t : Option String) :
    calculate_path_distance tr ⟨t, none⟩ = some 0 := by
  unfold calculate_path_distance
  have h : sumLinearLengths tr ((none : Option (List Feature)).getD []) = some 0 := rfl
  rw [h, Option.map_some', zero_div, round2_zero]

end CircuitHelper
